import Mathlib

/-!
rancher/os: resource resolver and stale-container reclaim.

A shallow embedding of `util/network/network.go` (`GetServices`, `retryHttp`,
`loadFromNetwork`, `LoadResource`, `serviceUrl`, `LoadServiceResource`) and of
the stale-container loop of `init/containerd/containerd.go` (`cleanupTask`,
`systemInitCmd`).

Conventions of the embedding:

* a Go `string` / `[]byte` is a sequence of bytes (`List UInt8`); indexing and
  slicing a Go string (`name[0:1]`) works on bytes;
* effects are made explicit: every function takes the `World` (cache contents
  and the chronological trace of effects performed so far) and returns the
  new world together with its result;
* the outside world (HTTP servers, the filesystem, the container runtime) is
  an oracle that may answer differently depending on the whole history of
  effects, so that "the third GET succeeds" is expressible;
* a run-time panic is the explicit outcome `Outcome.fault`;
* log output that does not influence control flow is left out of the network
  model.
-/

namespace Network

/-- A Go string: an immutable sequence of bytes. -/
abbrev GoString := List UInt8

/-- A Go byte slice (only its contents matter here). -/
abbrev Bytes := List UInt8

/-- The bytes of a string literal (UTF-8). -/
def str (s : String) : GoString := s.data.flatMap String.utf8EncodeChar

/-- Error values produced by foreign packages (`net/http`, `io/ioutil`,
`candiedyaml`); they are never pointer-equal to the sentinels of this package. -/
abbrev ForeignErr := Nat

/-- Result of a foreign call that returns `(value, error)`. -/
inductive Ret (α : Type) where
  | ok (a : α)
  | error (e : ForeignErr)
  deriving DecidableEq, Repr

/-- Error values that the functions of `network.go` can return. -/
inductive Err where
  /-- The sentinel `ErrNoNetwork`. -/
  | ErrNoNetwork
  /-- The sentinel `ErrNotFound`. -/
  | ErrNotFound
  /-- The value built by `fmt.Errorf("non-200 http response: %d", code)`. -/
  | non200 (code : Int)
  /-- An error value handed through from a foreign package. -/
  | foreign (e : ForeignErr)
  deriving DecidableEq, Repr

/-- Result of a Go call that returns `(value, error)` or panics. -/
inductive Outcome (α : Type) where
  | ok (a : α)
  | fail (e : Err)
  | fault
  deriving DecidableEq, Repr

/-- The part of `*http.Response` that the code looks at: the status code and
what `ioutil.ReadAll(resp.Body)` gives. -/
structure Response where
  StatusCode : Int
  Body : Ret Bytes
  deriving DecidableEq

/-- Effects visible outside the process or on the cache. -/
inductive Event where
  | cacheLookup (location : GoString)
  | cacheAdd (location : GoString) (data : Bytes)
  | httpGet (location : GoString)
  | readFile (location : GoString)
  deriving DecidableEq, Repr

/-- The outside world: answers may depend on everything done so far. -/
structure Env where
  /-- Result of `http.Get(location)` issued after the given history. -/
  httpGet : List Event → GoString → Ret Response
  /-- Result of `ioutil.ReadFile(location)` issued after the given history. -/
  readFile : List Event → GoString → Ret Bytes

/-- Process state: the resource cache and the trace of effects, oldest first. -/
structure World where
  cache : List (GoString × Bytes)
  trace : List Event
  deriving DecidableEq

/-- Content of the cache for a location (first entry wins). -/
def cacheGet (location : GoString) : List (GoString × Bytes) → Option Bytes
  | [] => none
  | (k, v) :: rest => if k = location then some v else cacheGet location rest

/-- Modelled from the spec: `cacheLookup` is called by `loadFromNetwork` but is
not part of the source at hand. The spec gives `Lookup(location) -> bytes | absent`
over a process-wide in-memory mapping; `none` stands for the `nil` slice. -/
def cacheLookup (location : GoString) (w : World) : World × Option Bytes :=
  ({ w with trace := w.trace ++ [Event.cacheLookup location] }, cacheGet location w.cache)

/-- Modelled from the spec: `cacheAdd` is called by `loadFromNetwork` but is
not part of the source at hand. The spec gives `Store(location, bytes) -> ()`,
pure memoization, a later store for the same location replacing the earlier one. -/
def cacheAdd (location : GoString) (data : Bytes) (w : World) : World :=
  { cache := (location, data) :: w.cache,
    trace := w.trace ++ [Event.cacheAdd location data] }

/-- The closure passed to `retryHttp` by `loadFromNetwork`: `http.Get(location)`. -/
def httpGetCall (env : Env) (location : GoString) (w : World) :
    World × Ret Response :=
  ({ w with trace := w.trace ++ [Event.httpGet location] }, env.httpGet w.trace location)

/-- The `for` loop of `retryHttp`: `n` iterations remain, `resp` and `err` are
the current values of the named results. -/
def retryLoop (f : World → World × Ret Response) :
    Nat → Option Response → Option ForeignErr → World →
    World × Option Response × Option ForeignErr
  | 0, resp, err, w => (w, resp, err)
  | n + 1, _, _, w =>
    match f w with
    | (w1, Ret.ok r) => (w1, some r, none)
    | (w1, Ret.error e) => retryLoop f n none (some e) w1

/-- `retryHttp(f, times)`: both named results start as `nil`. -/
def retryHttp (f : World → World × Ret Response) (times : Nat) (w : World) :
    World × Option Response × Option ForeignErr :=
  retryLoop f times none none w

/-- `loadFromNetwork(location, network)`. -/
def loadFromNetwork (env : Env) (location : GoString) (_network : Bool) (w : World) :
    World × Outcome Bytes :=
  match cacheLookup location w with
  | (w1, some bytes) => (w1, Outcome.ok bytes)
  | (w1, none) =>
    match retryHttp (httpGetCall env location) 8 w1 with
    | (w2, _, some err) => (w2, Outcome.fail (Err.foreign err))
    | (w2, none, none) => (w2, Outcome.fault)
    | (w2, some resp, none) =>
      if resp.StatusCode ≠ 200 then
        (w2, Outcome.fail (Err.non200 resp.StatusCode))
      else
        match resp.Body with
        | Ret.error err => (w2, Outcome.fail (Err.foreign err))
        | Ret.ok bytes => (cacheAdd location bytes w2, Outcome.ok bytes)

/-- `strings.HasPrefix(s, prefix)`. -/
def HasPrefix (s pre : GoString) : Bool := pre.isPrefixOf s

/-- `LoadResource(location, network)`. -/
def LoadResource (env : Env) (location : GoString) (network : Bool) (w : World) :
    World × Outcome Bytes :=
  if HasPrefix location (str "http:/") || HasPrefix location (str "https:/") then
    if !network then
      (w, Outcome.fail Err.ErrNoNetwork)
    else
      loadFromNetwork env location network w
  else if HasPrefix location (str "/") then
    match env.readFile w.trace location with
    | Ret.ok bytes => ({ w with trace := w.trace ++ [Event.readFile location] }, Outcome.ok bytes)
    | Ret.error e =>
      ({ w with trace := w.trace ++ [Event.readFile location] }, Outcome.fail (Err.foreign e))
  else
    (w, Outcome.fail Err.ErrNotFound)

/-- `serviceUrl(url, name)`: `fmt.Sprintf("%s/%s/%s.yml", url, name[0:1], name)`;
`none` is the panic of `name[0:1]` on a string shorter than one byte. -/
def serviceUrl (url name : GoString) : Option GoString :=
  if name.length < 1 then none
  else some (url ++ str "/" ++ name.take 1 ++ str "/" ++ name ++ str ".yml")

/-- The `for _, url := range urls` loop of `LoadServiceResource`. -/
def serviceLoop (env : Env) (name : GoString) (useNetwork : Bool) :
    List GoString → World → World × Outcome Bytes
  | [], w => (w, Outcome.fail Err.ErrNotFound)
  | url :: rest, w =>
    match serviceUrl url name with
    | none => (w, Outcome.fault)
    | some location =>
      match LoadResource env location useNetwork w with
      | (w1, Outcome.ok bytes) => (w1, Outcome.ok bytes)
      | (w1, Outcome.fail _) => serviceLoop env name useNetwork rest w1
      | (w1, Outcome.fault) => (w1, Outcome.fault)

/-- `LoadServiceResource(name, useNetwork, cfg)`; `urls` is the value of
`cfg.Rancher.Repositories.ToArray()`. -/
def LoadServiceResource (env : Env) (name : GoString) (useNetwork : Bool)
    (urls : List GoString) (w : World) : World × Outcome Bytes :=
  match LoadResource env name useNetwork w with
  | (w1, Outcome.ok bytes) => (w1, Outcome.ok bytes)
  | (w1, Outcome.fault) => (w1, Outcome.fault)
  | (w1, Outcome.fail err) =>
    if err = Err.ErrNoNetwork || !useNetwork then
      (w1, Outcome.fail Err.ErrNoNetwork)
    else
      serviceLoop env name useNetwork urls w1

/-- The Go value `map[string][]string` that `yaml.Unmarshal` fills; the code
only looks keys up in it. -/
abbrev ServiceMap := GoString → Option (List GoString)

/-- The `for _, url := range urls` loop of `GetServices`; `result` is the slice
accumulated so far and `Unmarshal` stands for `yaml.Unmarshal` into a fresh
`map[string][]string`. -/
def GetServicesLoop (env : Env) (Unmarshal : Bytes → Ret ServiceMap) :
    List GoString → List GoString → World → World × Outcome (List GoString)
  | [], result, w => (w, Outcome.ok result)
  | url :: rest, result, w =>
    match LoadResource env (url ++ str "/index.yml") true w with
    | (w1, Outcome.fault) => (w1, Outcome.fault)
    | (w1, Outcome.fail _) => GetServicesLoop env Unmarshal rest result w1
    | (w1, Outcome.ok content) =>
      match Unmarshal content with
      | Ret.error _ => GetServicesLoop env Unmarshal rest result w1
      | Ret.ok services =>
        match services (str "services") with
        | some list => GetServicesLoop env Unmarshal rest (result ++ list) w1
        | none => GetServicesLoop env Unmarshal rest result w1

/-- `GetServices(urls)`: `Outcome.ok result` is the return `(result, nil)`. -/
def GetServices (env : Env) (Unmarshal : Bytes → Ret ServiceMap) (urls : List GoString)
    (w : World) : World × Outcome (List GoString) :=
  GetServicesLoop env Unmarshal urls [] w

/-! ### Specification-side vocabulary for the network claims -/

/-- The world reached after calling `LoadResource` on each location in turn,
whatever the results. -/
def afterLoads (env : Env) (network : Bool) : List GoString → World → World
  | [], w => w
  | location :: rest, w => afterLoads env network rest (LoadResource env location network w).1

/-- The world reached after a sequence of `LoadResource` calls, each with its
own network flag, whatever the results. -/
def afterCalls (env : Env) : List (GoString × Bool) → World → World
  | [], w => w
  | (location, network) :: rest, w =>
    afterCalls env rest (LoadResource env location network w).1

/-- Whether an outcome is an error return. -/
def isFail {α : Type} : Outcome α → Bool
  | Outcome.fail _ => true
  | _ => false

/-- Whether every location of the list fails to load (network enabled) when
the locations are loaded in turn, each in the world left by the previous ones. -/
def allFail (env : Env) : List GoString → World → Bool
  | [], _ => true
  | location :: rest, w =>
    isFail (LoadResource env location true w).2 &&
      allFail env rest (LoadResource env location true w).1

/-- Number of bytes of the UTF-8 encoded character that starts with the lead
byte `b` (1 for an ASCII byte and for a byte that starts no character). -/
def utf8Width (b : UInt8) : Nat :=
  if b.toNat < 192 then 1 else if b.toNat < 224 then 2 else if b.toNat < 240 then 3 else 4

/-- The first character of a string of UTF-8 text, as bytes. -/
def firstCharacter : GoString → GoString
  | [] => []
  | b :: rest => (b :: rest).take (utf8Width b)

/-- The candidate location of a name in a repository, in the words of the
spec: `base/firstCharOfName/name.yml`. -/
def candidate (name base : GoString) : GoString :=
  base ++ str "/" ++ firstCharacter name ++ str "/" ++ name ++ str ".yml"

/-- The candidate location with the first byte of the name in place of its
first character: `base/firstByteOfName/name.yml`. -/
def byteCandidate (name base : GoString) : GoString :=
  base ++ str "/" ++ name.take 1 ++ str "/" ++ name ++ str ".yml"

/-- What one repository contributes to the service index, in the words of the
spec: the "services" sequence of `base/index.yml` when that resource loads and
parses as a mapping, and nothing otherwise. -/
def indexContribution (env : Env) (Unmarshal : Bytes → Ret ServiceMap) (base : GoString)
    (w : World) : List GoString :=
  match (LoadResource env (base ++ str "/index.yml") true w).2 with
  | Outcome.ok content =>
    match Unmarshal content with
    | Ret.ok services => (services (str "services")).getD []
    | Ret.error _ => []
  | _ => []

/-- The contributions of the repositories, in repository order, each
repository being consulted in the world left by the previous ones. -/
def indexContributions (env : Env) (Unmarshal : Bytes → Ret ServiceMap) :
    List GoString → World → List (List GoString)
  | [], _ => []
  | base :: rest, w =>
    indexContribution env Unmarshal base w ::
      indexContributions env Unmarshal rest
        (LoadResource env (base ++ str "/index.yml") true w).1

/-- Number of HTTP requests recorded in a trace. -/
def httpCount (t : List Event) : Nat :=
  (t.filter fun ev => match ev with | Event.httpGet _ => true | _ => false).length

end Network

namespace Containerd

/-- Identifier of a container (`ctr.ID()`). -/
abbrev ContainerID := String

/-- Opaque error value returned by the container runtime or by the context. -/
abbrev RuntimeErr := Nat

/-- Result of `ctr.Task(ctx, nil)`. -/
inductive TaskResult where
  | task
  | notFound (e : RuntimeErr)
  | error (e : RuntimeErr)
  deriving DecidableEq, Repr

/-- Result of `task.Kill(ctx, sig)`. -/
inductive KillResult where
  | ok
  | notFound (e : RuntimeErr)
  | error (e : RuntimeErr)
  deriving DecidableEq, Repr

/-- Which case of the final `select` fires: the value the delete goroutine
puts on `deleteErr` (`nil` or the wrapped error of `task.Delete`), or the
expiry of the context with `ctx.Err()`. -/
inductive SelectResult where
  | deleted
  | deleteFailed (e : RuntimeErr)
  | ctxDone (e : RuntimeErr)
  deriving DecidableEq, Repr

/-- Error values returned by `cleanupTask`. -/
inductive CleanupErr where
  /-- The value of `errors.Wrap(err, "getting task")`. -/
  | gettingTask (e : RuntimeErr)
  /-- The value of `errors.Wrapf(err, "killing task with %q", sig)`. -/
  | killingTaskWith (e : RuntimeErr)
  /-- The value of `errors.Wrap(err, "killing task")` sent by the delete goroutine. -/
  | killingTask (e : RuntimeErr)
  /-- The value of `ctx.Err()`. -/
  | ctxErr (e : RuntimeErr)
  deriving DecidableEq, Repr

/-- Severity of a log call; a `fatal` entry ends the process. -/
inductive Level where
  | info
  | error
  | fatal
  deriving DecidableEq, Repr

/-- Calls made to the runtime and to the logger, oldest first. -/
inductive Event where
  /-- The call `ctr.Task(ctx, nil)`. -/
  | taskLookup (id : ContainerID)
  /-- The goroutine running `task.Delete(deleteCtx)` is started. -/
  | taskDelete (id : ContainerID)
  /-- The call `task.Kill(ctx, SIGKILL)`. -/
  | taskKill (id : ContainerID)
  /-- The final `select` of `cleanupTask` returns. -/
  | selectDone (id : ContainerID)
  /-- The call `ctr.Delete(ctx)`. -/
  | containerDelete (id : ContainerID)
  /-- A log entry. -/
  | log (level : Level) (msg : String) (id : ContainerID)
  deriving DecidableEq, Repr

/-- The container runtime and the context as seen by the loop; every answer
may depend on the whole history. -/
structure Runtime where
  Task : List Event → ContainerID → TaskResult
  Kill : List Event → ContainerID → KillResult
  Select : List Event → ContainerID → SelectResult
  Delete : List Event → ContainerID → Option RuntimeErr

/-- `cleanupTask(ctx, ctr)`. The delete goroutine and the kill run
concurrently; which of `deleteErr` and `ctx.Done()` the `select` receives
from, and with what value, is the runtime's answer `Select`. -/
def cleanupTask (rt : Runtime) (ctr : ContainerID) (t : List Event) :
    List Event × Option CleanupErr :=
  match rt.Task t ctr with
  | TaskResult.notFound _ => (t ++ [Event.taskLookup ctr], none)
  | TaskResult.error e => (t ++ [Event.taskLookup ctr], some (CleanupErr.gettingTask e))
  | TaskResult.task =>
    let t1 := t ++ [Event.taskLookup ctr, Event.taskDelete ctr]
    match rt.Kill t1 ctr with
    | KillResult.error e => (t1 ++ [Event.taskKill ctr], some (CleanupErr.killingTaskWith e))
    | _ =>
      let t2 := t1 ++ [Event.taskKill ctr]
      match rt.Select t2 ctr with
      | SelectResult.deleted => (t2 ++ [Event.selectDone ctr], none)
      | SelectResult.deleteFailed e =>
        (t2 ++ [Event.selectDone ctr], some (CleanupErr.killingTask e))
      | SelectResult.ctxDone e => (t2 ++ [Event.selectDone ctr], some (CleanupErr.ctxErr e))

/-- One iteration of the stale-container loop of `systemInitCmd`. -/
def systemInitCmdBody (rt : Runtime) (ctr : ContainerID) (t : List Event) : List Event :=
  let t0 := t ++ [Event.log Level.info "Cleaning up stale service" ctr]
  let t1 :=
    match cleanupTask rt ctr t0 with
    | (t1, some _) => t1 ++ [Event.log Level.error "cleaning up task" ctr]
    | (t1, none) => t1
  match rt.Delete t1 ctr with
  | some _ =>
    t1 ++ [Event.containerDelete ctr, Event.log Level.error "deleting container" ctr]
  | none => t1 ++ [Event.containerDelete ctr]

/-- The loop `for _, ctr := range ctrs` of `systemInitCmd`. -/
def systemInitCmdLoop (rt : Runtime) : List ContainerID → List Event → List Event
  | [], t => t
  | ctr :: rest, t => systemInitCmdLoop rt rest (systemInitCmdBody rt ctr t)

/-! ### Specification-side vocabulary for the reclaim claim -/

/-- Whether an event is a step taken on the runtime (a call to it or the wait
for it), as opposed to a log entry. -/
def isCall : Event → Bool
  | Event.log _ _ _ => false
  | _ => true

/-- The container whose delete an event is, if it is one. -/
def deletedContainer : Event → Option ContainerID
  | Event.containerDelete id => some id
  | _ => none

/-- The task teardown of one container in the words of the spec (4.2, steps 1
to 4), `h` being the history when the task is fetched: fetch the task; if there
is none (or the fetch fails) nothing more is done to the task; otherwise start
the delete of the task and send it the kill; unless the kill fails with an
error other than NotFound, wait for the delete or for the context. -/
def taskTeardown (rt : Runtime) (ctr : ContainerID) (h : List Event) : List Event :=
  match rt.Task h ctr with
  | TaskResult.task =>
    match rt.Kill (h ++ [Event.taskLookup ctr, Event.taskDelete ctr]) ctr with
    | KillResult.error _ => [Event.taskLookup ctr, Event.taskDelete ctr, Event.taskKill ctr]
    | _ =>
      [Event.taskLookup ctr, Event.taskDelete ctr, Event.taskKill ctr, Event.selectDone ctr]
  | _ => [Event.taskLookup ctr]

/-- The reclaim of one container in the words of the spec (4.2): the task
teardown and then, whatever its outcome, the delete of the container. The
history `h` is the one at the start of the container's turn, to which the
teardown adds the opening log entry. -/
def reclaimCalls (rt : Runtime) (ctr : ContainerID) (h : List Event) : List Event :=
  taskTeardown rt ctr (h ++ [Event.log Level.info "Cleaning up stale service" ctr]) ++
    [Event.containerDelete ctr]

/-- The reclaims of the listed containers, in list order, each container being
reclaimed in the history left by the turns of the previous ones. -/
def reclaimAllCalls (rt : Runtime) : List ContainerID → List Event → List Event
  | [], _ => []
  | ctr :: rest, h => reclaimCalls rt ctr h ++ reclaimAllCalls rt rest (systemInitCmdBody rt ctr h)

/-- Whether an event is a fatal log entry. -/
def isFatal : Event → Bool
  | Event.log Level.fatal _ _ => true
  | _ => false

/-- A runtime in which everything about container "b" fails (its task cannot
be killed, its delete is refused) and everything else succeeds. -/
def rtSecondFails : Runtime :=
  { Task := fun _ _ => TaskResult.task
    Kill := fun _ id => if id = "b" then KillResult.error 1 else KillResult.ok
    Select := fun _ _ => SelectResult.deleted
    Delete := fun _ id => if id = "b" then some 2 else none }

end Containerd

namespace Network

/-! ### Concrete environments used by the examples -/

/-- A world with an empty cache and no history. -/
def emptyWorld : World := { cache := [], trace := [] }

/-- An environment in which every HTTP request and every file read fails. -/
def envDown : Env :=
  { httpGet := fun _ _ => Ret.error 111
    readFile := fun _ _ => Ret.error 2 }

/-- An environment whose HTTP server answers 404 to the first request ever made
and 200 with body "data" to every later one; there are no files. -/
def envSecondTry : Env :=
  { httpGet := fun t _ =>
      if httpCount t = 0 then Ret.ok { StatusCode := 404, Body := Ret.ok [] }
      else Ret.ok { StatusCode := 200, Body := Ret.ok (str "data") }
    readFile := fun _ _ => Ret.error 2 }

/-- An environment whose HTTP server fails the first two requests with a
transport error and answers 200 with body "data" from the third on. -/
def envThirdTry : Env :=
  { httpGet := fun t _ =>
      if httpCount t < 2 then Ret.error 111
      else Ret.ok { StatusCode := 200, Body := Ret.ok (str "data") }
    readFile := fun _ _ => Ret.error 2 }

/-- An environment that serves "data" with status 200 for every URL; there are
no files. -/
def envUp : Env :=
  { httpGet := fun _ _ => Ret.ok { StatusCode := 200, Body := Ret.ok (str "data") }
    readFile := fun _ _ => Ret.error 2 }

/-- An environment with two repositories: "http://repo2/f/foo.yml" is served
with status 200 and body "data", every other URL (that of repo1 included) is
answered 404; there are no files. -/
def envRepos : Env :=
  { httpGet := fun _ location =>
      if location = str "http://repo2/f/foo.yml" then
        Ret.ok { StatusCode := 200, Body := Ret.ok (str "data") }
      else Ret.ok { StatusCode := 404, Body := Ret.ok [] }
    readFile := fun _ _ => Ret.error 2 }

/-- An environment whose single repository "http://r" serves the resource
"http://r/é/éa.yml" with status 200 and body "data" and answers 404 to every
other URL; there are no files. -/
def envAccent : Env :=
  { httpGet := fun _ location =>
      if location = str "http://r/é/éa.yml" then
        Ret.ok { StatusCode := 200, Body := Ret.ok (str "data") }
      else Ret.ok { StatusCode := 404, Body := Ret.ok [] }
    readFile := fun _ _ => Ret.error 2 }

/-- An environment with two repositories serving an index each. -/
def envIndex : Env :=
  { httpGet := fun _ location =>
      if location = str "http://repo1/index.yml" then
        Ret.ok { StatusCode := 200, Body := Ret.ok (str "services: [a, b]") }
      else if location = str "http://repo2/index.yml" then
        Ret.ok { StatusCode := 200, Body := Ret.ok (str "services: [c]") }
      else Ret.ok { StatusCode := 404, Body := Ret.ok [] }
    readFile := fun _ _ => Ret.error 2 }

/-- A stand-in for `yaml.Unmarshal` that knows the two documents served by
`envIndex` and rejects everything else. -/
def unmarshalIndex (content : Bytes) : Ret ServiceMap :=
  if content = str "services: [a, b]" then
    Ret.ok fun key => if key = str "services" then some [str "a", str "b"] else none
  else if content = str "services: [c]" then
    Ret.ok fun key => if key = str "services" then some [str "c"] else none
  else Ret.error 3

/-! ### The retry loop -/

/-- An attempt that returns a response ends the loop: if the first `k` attempts
fail with a transport error and attempt `k + 1` (one of the `n` allowed) returns
a response, the loop returns that response after exactly `k + 1` requests. -/
theorem retryLoop_response (env : Env) (location : GoString) (r : Response) :
    ∀ (k n : Nat) (resp : Option Response) (err : Option ForeignErr) (w : World),
      k < n →
      (∀ i, i < k → ∃ e,
        env.httpGet (w.trace ++ List.replicate i (Event.httpGet location)) location
          = Ret.error e) →
      env.httpGet (w.trace ++ List.replicate k (Event.httpGet location)) location = Ret.ok r →
      retryLoop (httpGetCall env location) n resp err w =
        ({ cache := w.cache,
           trace := w.trace ++ List.replicate (k + 1) (Event.httpGet location) },
          some r, none) := by
  intro k
  induction k with
  | zero =>
    intro n resp err w hn _ hr
    obtain ⟨m, rfl⟩ : ∃ m, n = m + 1 := ⟨n - 1, by omega⟩
    simp only [List.replicate, List.append_nil] at hr
    simp [retryLoop, httpGetCall, hr]
  | succ k ih =>
    intro n resp err w hn hfail hr
    obtain ⟨m, rfl⟩ : ∃ m, n = m + 1 := ⟨n - 1, by omega⟩
    obtain ⟨e, he⟩ := hfail 0 (by omega)
    simp only [List.replicate, List.append_nil] at he
    have step : retryLoop (httpGetCall env location) (m + 1) resp err w =
        retryLoop (httpGetCall env location) m none (some e)
          { cache := w.cache, trace := w.trace ++ [Event.httpGet location] } := by
      simp [retryLoop, httpGetCall, he]
    rw [step, ih m none (some e) _ (by omega)]
    · simp [List.replicate_succ]
    · intro i hi
      obtain ⟨e', he'⟩ := hfail (i + 1) (by omega)
      exact ⟨e', by simpa [List.replicate_succ] using he'⟩
    · simpa [List.replicate_succ] using hr

/-- When each of the `n + 1` attempts fails with a transport error, the loop
makes exactly `n + 1` requests and returns the error of the last one. -/
theorem retryLoop_exhausted (env : Env) (location : GoString) :
    ∀ (n : Nat) (resp : Option Response) (err : Option ForeignErr) (w : World),
      (∀ i, i < n + 1 → ∃ e,
        env.httpGet (w.trace ++ List.replicate i (Event.httpGet location)) location
          = Ret.error e) →
      ∃ e,
        env.httpGet (w.trace ++ List.replicate n (Event.httpGet location)) location
          = Ret.error e ∧
        retryLoop (httpGetCall env location) (n + 1) resp err w =
          ({ cache := w.cache,
             trace := w.trace ++ List.replicate (n + 1) (Event.httpGet location) },
            none, some e) := by
  intro n
  induction n with
  | zero =>
    intro resp err w hfail
    obtain ⟨e, he⟩ := hfail 0 (by omega)
    refine ⟨e, he, ?_⟩
    simp only [List.replicate, List.append_nil] at he
    simp [retryLoop, httpGetCall, he]
  | succ n ih =>
    intro resp err w hfail
    obtain ⟨e, he⟩ := hfail 0 (by omega)
    simp only [List.replicate, List.append_nil] at he
    have step : retryLoop (httpGetCall env location) (n + 1 + 1) resp err w =
        retryLoop (httpGetCall env location) (n + 1) none (some e)
          { cache := w.cache, trace := w.trace ++ [Event.httpGet location] } := by
      simp [retryLoop, httpGetCall, he]
    obtain ⟨e', he', hloop⟩ := ih none (some e)
      { cache := w.cache, trace := w.trace ++ [Event.httpGet location] } (by
        intro i hi
        obtain ⟨e2, he2⟩ := hfail (i + 1) (by omega)
        exact ⟨e2, by simpa [List.replicate_succ] using he2⟩)
    refine ⟨e', by simpa [List.replicate_succ] using he', ?_⟩
    rw [step, hloop]
    simp [List.replicate_succ]

/-- With at least one iteration the loop never returns `(nil, nil)`. -/
theorem retryLoop_not_nil (f : World → World × Ret Response) :
    ∀ (n : Nat) (resp : Option Response) (err : Option ForeignErr) (w : World),
      (retryLoop f (n + 1) resp err w).2 ≠ (none, none) := by
  intro n
  induction n with
  | zero =>
    intro resp err w
    simp only [retryLoop]
    rcases h : f w with ⟨w1, r | e⟩ <;> simp
  | succ n ih =>
    intro resp err w
    rw [retryLoop]
    rcases h : f w with ⟨w1, r | e⟩
    · simp
    · exact ih none (some e) w1

/-! ### `LoadResource` -/

/-- For a remote location and an enabled network `LoadResource` is
`loadFromNetwork`. -/
theorem LoadResource_remote (env : Env) (location : GoString) (w : World)
    (hremote : HasPrefix location (str "http:/") = true ∨
      HasPrefix location (str "https:/") = true) :
    LoadResource env location true w = loadFromNetwork env location true w := by
  unfold LoadResource
  rcases hremote with h | h <;> simp [h]

/-- The value of `loadFromNetwork` on a cache miss, in terms of the retry loop. -/
theorem loadFromNetwork_miss (env : Env) (location : GoString) (network : Bool) (w : World)
    (hmiss : cacheGet location w.cache = none) :
    loadFromNetwork env location network w =
      match retryLoop (httpGetCall env location) 8 none none
          { cache := w.cache, trace := w.trace ++ [Event.cacheLookup location] } with
      | (w2, _, some err) => (w2, Outcome.fail (Err.foreign err))
      | (w2, none, none) => (w2, Outcome.fault)
      | (w2, some resp, none) =>
        if resp.StatusCode ≠ 200 then
          (w2, Outcome.fail (Err.non200 resp.StatusCode))
        else
          match resp.Body with
          | Ret.error err => (w2, Outcome.fail (Err.foreign err))
          | Ret.ok bytes => (cacheAdd location bytes w2, Outcome.ok bytes) := by
  simp only [loadFromNetwork, cacheLookup, hmiss, retryHttp]

/-- C1 (network gating). For every location that starts with "http:/" or
"https:/", `LoadResource(location, false)` fails with `ErrNoNetwork`; the world
is left as it was, so no HTTP request (and no other effect) is performed. -/
theorem LoadResource_network_gating (env : Env) (location : GoString) (w : World)
    (hremote : HasPrefix location (str "http:/") = true ∨
      HasPrefix location (str "https:/") = true) :
    LoadResource env location false w = (w, Outcome.fail Err.ErrNoNetwork) ∧
      httpCount (LoadResource env location false w).1.trace = httpCount w.trace := by
  have h : LoadResource env location false w = (w, Outcome.fail Err.ErrNoNetwork) := by
    unfold LoadResource
    rcases hremote with h | h <;> simp [h]
  exact ⟨h, by rw [h]⟩

/-- An instance of C1: "http://x" with the network disabled, in a world where
every request would have been answered. -/
theorem LoadResource_network_gating_witness :
    (HasPrefix (str "http://x") (str "http:/") = true ∨
      HasPrefix (str "http://x") (str "https:/") = true) ∧
    (LoadResource envUp (str "http://x") false emptyWorld
        = (emptyWorld, Outcome.fail Err.ErrNoNetwork) ∧
      httpCount (LoadResource envUp (str "http://x") false emptyWorld).1.trace
        = httpCount emptyWorld.trace) :=
  ⟨Or.inl (by decide),
    LoadResource_network_gating envUp (str "http://x") emptyWorld (Or.inl (by decide))⟩

/-- C3 (retry bound). For every HTTP(S) location that is not in the cache and
whose every GET attempt returns a transport error, `LoadResource(location, true)`
looks the cache up once, performs exactly 8 GET requests and nothing else, and
fails with the error returned by the 8th request. -/
theorem LoadResource_retry_bound (env : Env) (location : GoString) (w : World)
    (hremote : HasPrefix location (str "http:/") = true ∨
      HasPrefix location (str "https:/") = true)
    (hmiss : cacheGet location w.cache = none)
    (hfail : ∀ t, ∃ e, env.httpGet t location = Ret.error e) :
    ∃ e,
      env.httpGet
          (w.trace ++ Event.cacheLookup location :: List.replicate 7 (Event.httpGet location))
          location = Ret.error e ∧
      LoadResource env location true w =
        ({ cache := w.cache,
           trace := w.trace ++
             Event.cacheLookup location :: List.replicate 8 (Event.httpGet location) },
          Outcome.fail (Err.foreign e)) ∧
      httpCount (LoadResource env location true w).1.trace = httpCount w.trace + 8 := by
  obtain ⟨e, he, hloop⟩ := retryLoop_exhausted env location 7 none none
    { cache := w.cache, trace := w.trace ++ [Event.cacheLookup location] }
    (fun i _ => hfail _)
  have hres : LoadResource env location true w =
      ({ cache := w.cache,
         trace := w.trace ++
           Event.cacheLookup location :: List.replicate 8 (Event.httpGet location) },
        Outcome.fail (Err.foreign e)) := by
    rw [LoadResource_remote env location w hremote,
      loadFromNetwork_miss env location true w hmiss, hloop]
    simp
  refine ⟨e, by simpa using he, hres, ?_⟩
  rw [hres]
  simp [httpCount, List.filter_append, List.filter_replicate, List.filter_cons]

/-- An instance of C3: "http://x" against a server that is down. -/
theorem LoadResource_retry_bound_witness :
    (HasPrefix (str "http://x") (str "http:/") = true ∨
      HasPrefix (str "http://x") (str "https:/") = true) ∧
    cacheGet (str "http://x") emptyWorld.cache = none ∧
    (∀ t, ∃ e, envDown.httpGet t (str "http://x") = Ret.error e) ∧
    ∃ e,
      envDown.httpGet
          (emptyWorld.trace ++ Event.cacheLookup (str "http://x") ::
            List.replicate 7 (Event.httpGet (str "http://x")))
          (str "http://x") = Ret.error e ∧
      LoadResource envDown (str "http://x") true emptyWorld =
        ({ cache := emptyWorld.cache,
           trace := emptyWorld.trace ++ Event.cacheLookup (str "http://x") ::
             List.replicate 8 (Event.httpGet (str "http://x")) },
          Outcome.fail (Err.foreign e)) ∧
      httpCount (LoadResource envDown (str "http://x") true emptyWorld).1.trace
        = httpCount emptyWorld.trace + 8 :=
  ⟨Or.inl (by decide), rfl, fun _ => ⟨111, rfl⟩,
    LoadResource_retry_bound envDown (str "http://x") emptyWorld (Or.inl (by decide)) rfl
      (fun _ => ⟨111, rfl⟩)⟩

/-- C4, as stated, fails: against a server that answers 404 to the first
request and would answer 200 with body "data" to the second, the call makes one
single request and fails with the non-200 error instead of retrying and
returning "data". -/
theorem LoadResource_non200_not_retried :
    envSecondTry.httpGet
        [Event.cacheLookup (str "http://x"), Event.httpGet (str "http://x")] (str "http://x")
      = Ret.ok { StatusCode := 200, Body := Ret.ok (str "data") } ∧
    LoadResource envSecondTry (str "http://x") true emptyWorld =
      ({ cache := [],
         trace := [Event.cacheLookup (str "http://x"), Event.httpGet (str "http://x")] },
        Outcome.fail (Err.non200 404)) ∧
    (LoadResource envSecondTry (str "http://x") true emptyWorld).2
      ≠ Outcome.ok (str "data") := by
  decide

/-- Among the first `n` answers of a server either all are transport errors or
there is a first one that is a response. -/
theorem first_response_or_none (answer : Nat → Ret Response) :
    ∀ n : Nat,
      (∀ i, i < n → ∃ e, answer i = Ret.error e) ∨
      ∃ (k : Nat) (r : Response), k < n ∧ (∀ i, i < k → ∃ e, answer i = Ret.error e) ∧
        answer k = Ret.ok r := by
  intro n
  induction n with
  | zero => exact Or.inl (fun i hi => absurd hi (by omega))
  | succ n ih =>
    rcases ih with hall | ⟨k, r, hk, hpre, hresp⟩
    · rcases hn : answer n with r | e
      · exact Or.inr ⟨n, r, by omega, hall, hn⟩
      · left
        intro i hi
        rcases Nat.lt_succ_iff_lt_or_eq.mp hi with h | h
        · exact hall i h
        · exact ⟨e, by rw [h, hn]⟩
    · exact Or.inr ⟨k, r, by omega, hpre, hresp⟩

/-- C4 (amended). For every un-cached HTTP(S) location and an enabled network,
only transport errors are retried. The first of the at most 8 GET attempts that
returns a response ends the retrying, whatever its status: with status 200 and
a readable body the call stores the body in the cache and returns it, with
status 200 and an unreadable body it fails with the read error, and with any
other status it fails at once with the non-200 error, no further request being
made. When all 8 attempts return a transport error, the call fails after these
8 requests with the error of the last one. The call fails in no other way: a
failure is either that of the first response (non-200 status or unreadable
body) or the last of 8 transport errors. -/
theorem LoadResource_first_response_decides (env : Env) (location : GoString) (w : World)
    (hremote : HasPrefix location (str "http:/") = true ∨
      HasPrefix location (str "https:/") = true)
    (hmiss : cacheGet location w.cache = none) :
    (∀ (k : Nat) (r : Response), k < 8 →
      (∀ i, i < k → ∃ e, env.httpGet
          (w.trace ++ Event.cacheLookup location :: List.replicate i (Event.httpGet location))
          location = Ret.error e) →
      env.httpGet
          (w.trace ++ Event.cacheLookup location :: List.replicate k (Event.httpGet location))
          location = Ret.ok r →
      LoadResource env location true w =
        if r.StatusCode ≠ 200 then
          ({ cache := w.cache,
             trace := w.trace ++
               Event.cacheLookup location :: List.replicate (k + 1) (Event.httpGet location) },
            Outcome.fail (Err.non200 r.StatusCode))
        else
          match r.Body with
          | Ret.error e =>
            ({ cache := w.cache,
               trace := w.trace ++
                 Event.cacheLookup location :: List.replicate (k + 1) (Event.httpGet location) },
              Outcome.fail (Err.foreign e))
          | Ret.ok bytes =>
            ({ cache := (location, bytes) :: w.cache,
               trace := w.trace ++
                 Event.cacheLookup location :: List.replicate (k + 1) (Event.httpGet location)
                 ++ [Event.cacheAdd location bytes] },
              Outcome.ok bytes)) ∧
    ((∀ i, i < 8 → ∃ e, env.httpGet
          (w.trace ++ Event.cacheLookup location :: List.replicate i (Event.httpGet location))
          location = Ret.error e) →
      ∃ e,
        env.httpGet
            (w.trace ++ Event.cacheLookup location :: List.replicate 7 (Event.httpGet location))
            location = Ret.error e ∧
        LoadResource env location true w =
          ({ cache := w.cache,
             trace := w.trace ++
               Event.cacheLookup location :: List.replicate 8 (Event.httpGet location) },
            Outcome.fail (Err.foreign e))) ∧
    (∀ err, (LoadResource env location true w).2 = Outcome.fail err →
      (∃ (k : Nat) (r : Response), k < 8 ∧
        (∀ i, i < k → ∃ e, env.httpGet
            (w.trace ++ Event.cacheLookup location :: List.replicate i (Event.httpGet location))
            location = Ret.error e) ∧
        env.httpGet
            (w.trace ++ Event.cacheLookup location :: List.replicate k (Event.httpGet location))
            location = Ret.ok r ∧
        ((r.StatusCode ≠ 200 ∧ err = Err.non200 r.StatusCode) ∨
          (r.StatusCode = 200 ∧ ∃ e, r.Body = Ret.error e ∧ err = Err.foreign e))) ∨
      ((∀ i, i < 8 → ∃ e, env.httpGet
            (w.trace ++ Event.cacheLookup location :: List.replicate i (Event.httpGet location))
            location = Ret.error e) ∧
        ∃ e, env.httpGet
            (w.trace ++ Event.cacheLookup location :: List.replicate 7 (Event.httpGet location))
            location = Ret.error e ∧ err = Err.foreign e)) := by
  have h1 : ∀ (k : Nat) (r : Response), k < 8 →
      (∀ i, i < k → ∃ e, env.httpGet
          (w.trace ++ Event.cacheLookup location :: List.replicate i (Event.httpGet location))
          location = Ret.error e) →
      env.httpGet
          (w.trace ++ Event.cacheLookup location :: List.replicate k (Event.httpGet location))
          location = Ret.ok r →
      LoadResource env location true w =
        if r.StatusCode ≠ 200 then
          ({ cache := w.cache,
             trace := w.trace ++
               Event.cacheLookup location :: List.replicate (k + 1) (Event.httpGet location) },
            Outcome.fail (Err.non200 r.StatusCode))
        else
          match r.Body with
          | Ret.error e =>
            ({ cache := w.cache,
               trace := w.trace ++
                 Event.cacheLookup location :: List.replicate (k + 1) (Event.httpGet location) },
              Outcome.fail (Err.foreign e))
          | Ret.ok bytes =>
            ({ cache := (location, bytes) :: w.cache,
               trace := w.trace ++
                 Event.cacheLookup location :: List.replicate (k + 1) (Event.httpGet location)
                 ++ [Event.cacheAdd location bytes] },
              Outcome.ok bytes) := by
    intro k r hk hfail hresp
    have hloop := retryLoop_response env location r k 8 none none
      { cache := w.cache, trace := w.trace ++ [Event.cacheLookup location] } hk
      (fun i hi => by
        obtain ⟨e, he⟩ := hfail i hi
        exact ⟨e, by simpa using he⟩)
      (by simpa using hresp)
    rw [LoadResource_remote env location w hremote,
      loadFromNetwork_miss env location true w hmiss, hloop]
    by_cases hs : r.StatusCode = 200
    · rcases hb : r.Body with bytes | e <;> simp [hs, hb, cacheAdd]
    · simp [hs]
  have h2 : (∀ i, i < 8 → ∃ e, env.httpGet
          (w.trace ++ Event.cacheLookup location :: List.replicate i (Event.httpGet location))
          location = Ret.error e) →
      ∃ e,
        env.httpGet
            (w.trace ++ Event.cacheLookup location :: List.replicate 7 (Event.httpGet location))
            location = Ret.error e ∧
        LoadResource env location true w =
          ({ cache := w.cache,
             trace := w.trace ++
               Event.cacheLookup location :: List.replicate 8 (Event.httpGet location) },
            Outcome.fail (Err.foreign e)) := by
    intro hfail
    obtain ⟨e, he, hloop⟩ := retryLoop_exhausted env location 7 none none
      { cache := w.cache, trace := w.trace ++ [Event.cacheLookup location] }
      (fun i hi => by
        obtain ⟨e, he⟩ := hfail i hi
        exact ⟨e, by simpa using he⟩)
    refine ⟨e, by simpa using he, ?_⟩
    rw [LoadResource_remote env location w hremote,
      loadFromNetwork_miss env location true w hmiss, hloop]
    simp
  refine ⟨h1, h2, ?_⟩
  intro err herr
  rcases first_response_or_none
    (fun i => env.httpGet
      (w.trace ++ Event.cacheLookup location :: List.replicate i (Event.httpGet location))
      location) 8 with hall | ⟨k, r, hk, hpre, hresp⟩
  · right
    obtain ⟨e, he, hres⟩ := h2 hall
    rw [hres] at herr
    simp only [Outcome.fail.injEq] at herr
    exact ⟨hall, e, he, herr.symm⟩
  · left
    have hres := h1 k r hk hpre hresp
    rw [hres] at herr
    refine ⟨k, r, hk, hpre, hresp, ?_⟩
    by_cases hs : r.StatusCode = 200
    · right
      rcases hb : r.Body with bytes | e
      · simp [hs, hb] at herr
      · simp only [hs, hb, ne_eq, not_true_eq_false, if_false, Outcome.fail.injEq] at herr
        exact ⟨hs, e, rfl, herr.symm⟩
    · left
      simp only [hs, ne_eq, not_false_eq_true, if_true, Outcome.fail.injEq] at herr
      exact ⟨hs, herr.symm⟩

/-- An instance of the amended C4: the hypotheses hold for "http://x" in the
empty world, and against a server that fails twice and then answers 200 the
third request decides the call. -/
theorem LoadResource_first_response_decides_witness :
    (HasPrefix (str "http://x") (str "http:/") = true ∨
      HasPrefix (str "http://x") (str "https:/") = true) ∧
    cacheGet (str "http://x") emptyWorld.cache = none ∧
    LoadResource envThirdTry (str "http://x") true emptyWorld =
      ({ cache := [(str "http://x", str "data")],
         trace := Event.cacheLookup (str "http://x") ::
           List.replicate 3 (Event.httpGet (str "http://x"))
           ++ [Event.cacheAdd (str "http://x") (str "data")] },
        Outcome.ok (str "data")) :=
  ⟨Or.inl (by decide), rfl,
    ((LoadResource_first_response_decides envThirdTry (str "http://x") emptyWorld
        (Or.inl (by decide)) rfl).1 2
      { StatusCode := 200, Body := Ret.ok (str "data") } (by decide)
      (fun i hi => ⟨111, by
        have : i = 0 ∨ i = 1 := by omega
        rcases this with rfl | rfl <;> decide⟩)
      (by decide)).trans (by decide)⟩

/-- C9 (non-remote locations). For every location without an "http:/" or
"https:/" prefix and for either value of the network flag: when the location
starts with "/", `LoadResource` performs one file read and returns exactly its
result, the cache being neither consulted nor changed and no HTTP request
made; otherwise it fails with `ErrNotFound` and leaves the world untouched. -/
theorem LoadResource_non_remote (env : Env) (location : GoString) (network : Bool) (w : World)
    (hhttp : HasPrefix location (str "http:/") = false)
    (hhttps : HasPrefix location (str "https:/") = false) :
    (HasPrefix location (str "/") = true →
      LoadResource env location network w =
        ({ cache := w.cache, trace := w.trace ++ [Event.readFile location] },
          match env.readFile w.trace location with
          | Ret.ok bytes => Outcome.ok bytes
          | Ret.error e => Outcome.fail (Err.foreign e))) ∧
    (HasPrefix location (str "/") = false →
      LoadResource env location network w = (w, Outcome.fail Err.ErrNotFound)) := by
  constructor
  · intro hlocal
    unfold LoadResource
    rcases h : env.readFile w.trace location with bytes | e <;> simp [hhttp, hhttps, hlocal]
  · intro hother
    unfold LoadResource
    simp [hhttp, hhttps, hother]

/-- An instance of C9: the local path "/etc/x" against a filesystem without
files, and the bare name "foo" with the network enabled. -/
theorem LoadResource_non_remote_witness :
    HasPrefix (str "/etc/x") (str "http:/") = false ∧
    HasPrefix (str "/etc/x") (str "https:/") = false ∧
    LoadResource envUp (str "/etc/x") false emptyWorld =
      ({ cache := [], trace := [Event.readFile (str "/etc/x")] },
        Outcome.fail (Err.foreign 2)) ∧
    LoadResource envUp (str "foo") true emptyWorld =
      (emptyWorld, Outcome.fail Err.ErrNotFound) :=
  ⟨by decide, by decide,
    ((LoadResource_non_remote envUp (str "/etc/x") false emptyWorld
      (by decide) (by decide)).1 (by decide)).trans (by decide),
    (LoadResource_non_remote envUp (str "foo") true emptyWorld
      (by decide) (by decide)).2 (by decide)⟩

/-! ### Faults and sentinels -/

/-- A cache hit: `loadFromNetwork` returns the cached bytes after the lookup
alone. -/
theorem loadFromNetwork_hit (env : Env) (location : GoString) (network : Bool) (w : World)
    (B : Bytes) (hhit : cacheGet location w.cache = some B) :
    loadFromNetwork env location network w =
      ({ cache := w.cache, trace := w.trace ++ [Event.cacheLookup location] },
        Outcome.ok B) := by
  simp [loadFromNetwork, cacheLookup, hhit]

/-- `loadFromNetwork` never panics: the retry loop runs 8 times, so it always
leaves a response or an error. -/
theorem loadFromNetwork_ne_fault (env : Env) (location : GoString) (network : Bool)
    (w : World) : (loadFromNetwork env location network w).2 ≠ Outcome.fault := by
  rcases hc : cacheGet location w.cache with _ | bytes
  · have hnn := retryLoop_not_nil (httpGetCall env location) 7 none none
      { cache := w.cache, trace := w.trace ++ [Event.cacheLookup location] }
    rw [loadFromNetwork_miss env location network w hc]
    rcases hl : retryLoop (httpGetCall env location) 8 none none
      { cache := w.cache, trace := w.trace ++ [Event.cacheLookup location] }
      with ⟨w2, resp, err⟩
    rw [hl] at hnn
    rcases err with _ | err
    · rcases resp with _ | resp
      · exact absurd rfl hnn
      · by_cases hs : resp.StatusCode = 200
        · rcases hb : resp.Body with b | e <;> simp [hs, hb]
        · simp [hs]
    · simp
  · simp [loadFromNetwork_hit env location network w bytes hc]

/-- `LoadResource` never panics. -/
theorem LoadResource_ne_fault (env : Env) (location : GoString) (network : Bool)
    (w : World) : (LoadResource env location network w).2 ≠ Outcome.fault := by
  unfold LoadResource
  split
  · split
    · simp
    · exact loadFromNetwork_ne_fault env location network w
  · split
    · split <;> simp
    · simp

/-- `loadFromNetwork` never returns the sentinel `ErrNoNetwork`. -/
theorem loadFromNetwork_ne_noNetwork (env : Env) (location : GoString) (network : Bool)
    (w : World) : (loadFromNetwork env location network w).2 ≠ Outcome.fail Err.ErrNoNetwork := by
  rcases hc : cacheGet location w.cache with _ | bytes
  · rw [loadFromNetwork_miss env location network w hc]
    rcases hl : retryLoop (httpGetCall env location) 8 none none
      { cache := w.cache, trace := w.trace ++ [Event.cacheLookup location] }
      with ⟨w2, resp, err⟩
    rcases err with _ | err
    · rcases resp with _ | resp
      · simp
      · by_cases hs : resp.StatusCode = 200
        · rcases hb : resp.Body with b | e <;> simp [hs, hb]
        · simp [hs]
    · simp
  · simp [loadFromNetwork_hit env location network w bytes hc]

/-- With the network enabled `LoadResource` never returns `ErrNoNetwork`. -/
theorem LoadResource_true_ne_noNetwork (env : Env) (location : GoString) (w : World) :
    (LoadResource env location true w).2 ≠ Outcome.fail Err.ErrNoNetwork := by
  unfold LoadResource
  split
  · simpa using loadFromNetwork_ne_noNetwork env location true w
  · split
    · split <;> simp
    · simp

/-! ### The cache -/

/-- The retry loop does not touch the cache. -/
theorem retryLoop_cache (env : Env) (location : GoString) :
    ∀ (n : Nat) (resp : Option Response) (err : Option ForeignErr) (w : World),
      (retryLoop (httpGetCall env location) n resp err w).1.cache = w.cache := by
  intro n
  induction n with
  | zero => intro resp err w; rfl
  | succ n ih =>
    intro resp err w
    rw [retryLoop]
    rcases h : env.httpGet w.trace location with r | e
    · simp [httpGetCall, h]
    · simp only [httpGetCall, h]
      exact ih none (some e) _

/-- An entry of the cache survives `loadFromNetwork` for any location. -/
theorem loadFromNetwork_keeps (env : Env) (L : GoString) (B : Bytes) (location : GoString)
    (network : Bool) (w : World) (hL : cacheGet L w.cache = some B) :
    cacheGet L (loadFromNetwork env location network w).1.cache = some B := by
  rcases hc : cacheGet location w.cache with _ | bytes
  · have hne : location ≠ L := by
      intro h
      rw [h, hL] at hc
      exact absurd hc (by simp)
    have hcache := retryLoop_cache env location 8 none none
      { cache := w.cache, trace := w.trace ++ [Event.cacheLookup location] }
    rw [loadFromNetwork_miss env location network w hc]
    rcases hl : retryLoop (httpGetCall env location) 8 none none
      { cache := w.cache, trace := w.trace ++ [Event.cacheLookup location] }
      with ⟨w2, resp, err⟩
    rw [hl] at hcache
    simp only at hcache
    rcases err with _ | err
    · rcases resp with _ | resp
      · simpa [hcache] using hL
      · by_cases hs : resp.StatusCode = 200
        · rcases hb : resp.Body with b | e
          · simp [hs, hb, cacheAdd, cacheGet, hne, hcache, hL]
          · simpa [hs, hb, hcache] using hL
        · simpa [hs, hcache] using hL
    · simpa [hcache] using hL
  · rw [loadFromNetwork_hit env location network w bytes hc]
    exact hL

/-- An entry of the cache survives `LoadResource` for any location and flag. -/
theorem LoadResource_keeps (env : Env) (L : GoString) (B : Bytes) (location : GoString)
    (network : Bool) (w : World) (hL : cacheGet L w.cache = some B) :
    cacheGet L (LoadResource env location network w).1.cache = some B := by
  unfold LoadResource
  split
  · split
    · exact hL
    · exact loadFromNetwork_keeps env L B location network w hL
  · split
    · split <;> exact hL
    · exact hL

/-- An entry of the cache survives any sequence of `LoadResource` calls. -/
theorem afterCalls_keeps (env : Env) (L : GoString) (B : Bytes) :
    ∀ (calls : List (GoString × Bool)) (w : World), cacheGet L w.cache = some B →
      cacheGet L (afterCalls env calls w).cache = some B := by
  intro calls
  induction calls with
  | nil => intro w h; exact h
  | cons c rest ih =>
    intro w h
    obtain ⟨location, network⟩ := c
    exact ih _ (LoadResource_keeps env L B location network w h)

/-- A load that succeeds after a cache miss leaves its bytes in the cache. -/
theorem loadFromNetwork_stores (env : Env) (location : GoString) (network : Bool)
    (w w1 : World) (B : Bytes) (hmiss : cacheGet location w.cache = none)
    (hok : loadFromNetwork env location network w = (w1, Outcome.ok B)) :
    cacheGet location w1.cache = some B := by
  rw [loadFromNetwork_miss env location network w hmiss] at hok
  rcases hl : retryLoop (httpGetCall env location) 8 none none
    { cache := w.cache, trace := w.trace ++ [Event.cacheLookup location] }
    with ⟨w2, resp, err⟩
  rw [hl] at hok
  rcases err with _ | err
  · rcases resp with _ | resp
    · simp at hok
    · by_cases hs : resp.StatusCode = 200
      · rcases hb : resp.Body with b | e
        · simp only [hs, hb, ne_eq, not_true_eq_false, if_false, Prod.mk.injEq,
            Outcome.ok.injEq] at hok
          obtain ⟨hw, hB⟩ := hok
          subst hw hB
          simp [cacheAdd, cacheGet]
        · simp [hs, hb] at hok
      · simp [hs] at hok
  · simp at hok

/-- C2, as stated, fails for the flag value `false`: after "http://x" has been
fetched from the network and stored in the cache, `LoadResource("http://x", false)`
fails with `ErrNoNetwork` instead of returning the cached bytes. -/
theorem LoadResource_cached_offline_fails :
    cacheGet (str "http://x") emptyWorld.cache = none ∧
    (LoadResource envUp (str "http://x") true emptyWorld).2 = Outcome.ok (str "data") ∧
    cacheGet (str "http://x") (LoadResource envUp (str "http://x") true emptyWorld).1.cache
      = some (str "data") ∧
    (LoadResource envUp (str "http://x") false
        (LoadResource envUp (str "http://x") true emptyWorld).1).2
      = Outcome.fail Err.ErrNoNetwork ∧
    (LoadResource envUp (str "http://x") false
        (LoadResource envUp (str "http://x") true emptyWorld).1).2
      ≠ Outcome.ok (str "data") := by
  decide

/-- C2 (amended). Let `L` be an HTTP(S) location for which an earlier
`LoadResource(L, true)` missed the cache, succeeded from the network and
returned `B`. Then `B` is stored in the cache for `L`, and after any further
sequence of `LoadResource` calls: `LoadResource(L, true)` returns `B` after a
cache lookup alone, without any HTTP request; `LoadResource(L, false)` fails
with `ErrNoNetwork` without consulting the cache and without any HTTP request. -/
theorem LoadResource_cache_precedence (env : Env) (L : GoString) (B : Bytes) (w w1 : World)
    (calls : List (GoString × Bool))
    (hremote : HasPrefix L (str "http:/") = true ∨ HasPrefix L (str "https:/") = true)
    (hmiss : cacheGet L w.cache = none)
    (hfirst : LoadResource env L true w = (w1, Outcome.ok B)) :
    cacheGet L w1.cache = some B ∧
    LoadResource env L true (afterCalls env calls w1) =
      ({ cache := (afterCalls env calls w1).cache,
         trace := (afterCalls env calls w1).trace ++ [Event.cacheLookup L] },
        Outcome.ok B) ∧
    LoadResource env L false (afterCalls env calls w1) =
      (afterCalls env calls w1, Outcome.fail Err.ErrNoNetwork) := by
  have hstored : cacheGet L w1.cache = some B := by
    rw [LoadResource_remote env L w hremote] at hfirst
    exact loadFromNetwork_stores env L true w w1 B hmiss hfirst
  refine ⟨hstored, ?_, ?_⟩
  · rw [LoadResource_remote env L _ hremote]
    exact loadFromNetwork_hit env L true _ B (afterCalls_keeps env L B calls w1 hstored)
  · unfold LoadResource
    rcases hremote with h | h <;> simp [h]

/-- An instance of the amended C2: "http://x" is fetched, then "http://y" and
a local file are loaded, then "http://x" is asked for again. -/
theorem LoadResource_cache_precedence_witness :
    (HasPrefix (str "http://x") (str "http:/") = true ∨
      HasPrefix (str "http://x") (str "https:/") = true) ∧
    cacheGet (str "http://x") emptyWorld.cache = none ∧
    LoadResource envUp (str "http://x") true emptyWorld =
      ({ cache := [(str "http://x", str "data")],
         trace := [Event.cacheLookup (str "http://x"), Event.httpGet (str "http://x"),
           Event.cacheAdd (str "http://x") (str "data")] },
        Outcome.ok (str "data")) ∧
    (LoadResource envUp (str "http://x") true
        (afterCalls envUp [(str "http://y", true), (str "/etc/x", false)]
          { cache := [(str "http://x", str "data")],
            trace := [Event.cacheLookup (str "http://x"), Event.httpGet (str "http://x"),
              Event.cacheAdd (str "http://x") (str "data")] })).2
      = Outcome.ok (str "data") :=
  ⟨Or.inl (by decide), rfl, by decide,
    congrArg Prod.snd
      (LoadResource_cache_precedence envUp (str "http://x") (str "data") emptyWorld
        { cache := [(str "http://x", str "data")],
          trace := [Event.cacheLookup (str "http://x"), Event.httpGet (str "http://x"),
            Event.cacheAdd (str "http://x") (str "data")] }
        [(str "http://y", true), (str "/etc/x", false)]
        (Or.inl (by decide)) rfl (by decide)).2.1⟩

/-! ### `LoadServiceResource` -/

/-- C6 (NoNetwork short-circuit). For every name and every repository list, if
the direct `LoadResource(name, useNetwork)` fails with `ErrNoNetwork`, or fails
in any way while `useNetwork` is false, then `LoadServiceResource` fails with
`ErrNoNetwork` in the world left by the direct load: no repository candidate
is attempted. -/
theorem LoadServiceResource_no_network (env : Env) (name : GoString) (useNetwork : Bool)
    (urls : List GoString) (w : World) (e : Err)
    (hfail : (LoadResource env name useNetwork w).2 = Outcome.fail e)
    (hcase : e = Err.ErrNoNetwork ∨ useNetwork = false) :
    LoadServiceResource env name useNetwork urls w =
      ((LoadResource env name useNetwork w).1, Outcome.fail Err.ErrNoNetwork) := by
  unfold LoadServiceResource
  rcases hl : LoadResource env name useNetwork w with ⟨w1, res⟩
  rw [hl] at hfail
  simp only at hfail
  subst hfail
  rcases hcase with h | h <;> simp [h]

/-- An instance of C6: the remote name "http://x" with the network disabled and
one repository configured. -/
theorem LoadServiceResource_no_network_witness :
    (LoadResource envUp (str "http://x") false emptyWorld).2 = Outcome.fail Err.ErrNoNetwork ∧
    LoadServiceResource envUp (str "http://x") false [str "http://repo1"] emptyWorld =
      (emptyWorld, Outcome.fail Err.ErrNoNetwork) :=
  ⟨by decide,
    (LoadServiceResource_no_network envUp (str "http://x") false [str "http://repo1"]
      emptyWorld Err.ErrNoNetwork (by decide) (Or.inl rfl)).trans (by decide)⟩

/-- C7, at the failing input: for the empty name, with the network enabled and
at least one repository configured, `LoadServiceResource` panics (the slice
`name[0:1]` in `serviceUrl` is out of range) instead of returning bytes,
`ErrNoNetwork` or `ErrNotFound`. -/
theorem LoadServiceResource_empty_name_faults (env : Env) (url : GoString)
    (rest : List GoString) (w : World) :
    LoadServiceResource env [] true (url :: rest) w = (w, Outcome.fault) := by
  have h1 : HasPrefix [] (str "http:/") = false := by decide
  have h2 : HasPrefix [] (str "https:/") = false := by decide
  have h3 : HasPrefix [] (str "/") = false := by decide
  have h : LoadResource env [] true w = (w, Outcome.fail Err.ErrNotFound) := by
    simp [LoadResource, h1, h2, h3]
  simp [LoadServiceResource, h, serviceLoop, serviceUrl]

/-- For a non-empty name `serviceUrl` builds the candidate location. -/
theorem serviceUrl_eq_byteCandidate (url name : GoString) (hne : name ≠ []) :
    serviceUrl url name = some (byteCandidate name url) := by
  have hlen : ¬ name.length < 1 := by
    cases name with
    | nil => exact absurd rfl hne
    | cons c cs => simp
  simp [serviceUrl, byteCandidate, hlen]

/-- The repository loop stops at the first candidate that loads. -/
theorem serviceLoop_first_success (env : Env) (name : GoString) (hne : name ≠ [])
    (r : GoString) (post : List GoString) (b : Bytes) :
    ∀ (pre : List GoString) (w : World),
      allFail env (pre.map (byteCandidate name)) w = true →
      (LoadResource env (byteCandidate name r) true
          (afterLoads env true (pre.map (byteCandidate name)) w)).2 = Outcome.ok b →
      serviceLoop env name true (pre ++ r :: post) w =
        (afterLoads env true ((pre ++ [r]).map (byteCandidate name)) w, Outcome.ok b) := by
  intro pre
  induction pre with
  | nil =>
    intro w _ hhit
    simp only [List.map_nil, afterLoads] at hhit
    simp only [List.nil_append, serviceLoop, serviceUrl_eq_byteCandidate _ name hne,
      List.map_cons, List.map_nil, afterLoads]
    rcases hl : LoadResource env (byteCandidate name r) true w with ⟨w1, res⟩
    rw [hl] at hhit
    simp only at hhit
    subst hhit
    rfl
  | cons u pre ih =>
    intro w hfail hhit
    simp only [List.map_cons, allFail, Bool.and_eq_true] at hfail
    simp only [List.map_cons, afterLoads] at hhit
    simp only [List.cons_append, serviceLoop, serviceUrl_eq_byteCandidate _ name hne,
      List.map_cons, afterLoads]
    rcases hl : LoadResource env (byteCandidate name u) true w with ⟨w1, res⟩
    rw [hl] at hfail hhit
    obtain ⟨hres, hrest⟩ := hfail
    cases res with
    | ok a => simp [isFail] at hres
    | fault => simp [isFail] at hres
    | fail e => exact ih w1 hrest hhit

/-- C5, as stated, fails for a name whose first character takes more than one
byte: for the name "éa" and the repository "http://r", the candidate of the
claim, "http://r/é/éa.yml", would load with body "data", but the code requests
the location built with the first byte 0xC3 of the name alone, is answered
404, and fails with `ErrNotFound` without ever requesting the candidate. -/
theorem LoadServiceResource_first_byte_not_character :
    candidate (str "éa") (str "http://r") = str "http://r/é/éa.yml" ∧
    isFail (LoadResource envAccent (str "éa") true emptyWorld).2 = true ∧
    (LoadResource envAccent (candidate (str "éa") (str "http://r")) true emptyWorld).2
      = Outcome.ok (str "data") ∧
    LoadServiceResource envAccent (str "éa") true [str "http://r"] emptyWorld =
      ({ cache := [],
         trace := [Event.cacheLookup (str "http://r/" ++ [195] ++ str "/éa.yml"),
           Event.httpGet (str "http://r/" ++ [195] ++ str "/éa.yml")] },
        Outcome.fail Err.ErrNotFound) ∧
    (LoadServiceResource envAccent (str "éa") true [str "http://r"] emptyWorld).2
      ≠ Outcome.ok (str "data") := by
  decide

/-- The first byte of a name is its first character when that byte is ASCII. -/
theorem byteCandidate_eq_candidate (name base : GoString) (b : UInt8) (rest : GoString)
    (hname : name = b :: rest) (hascii : b.toNat < 128) :
    byteCandidate name base = candidate name base := by
  subst hname
  have hw : utf8Width b = 1 := by
    unfold utf8Width
    rw [if_pos (by omega)]
  simp [byteCandidate, candidate, firstCharacter, hw]

/-- C5 (amended). For every non-empty name, with the network enabled: if the
direct `LoadResource(name, true)` fails and so does, for every repository of
`pre` in order, the load of its candidate location
`base + "/" + name[0:1] + "/" + name + ".yml"`, built with the first byte of
the name, while the candidate of the next repository `r` loads with bytes `b`,
then `LoadServiceResource` returns `b`. The world it leaves is the one reached
by loading, in this order, `name`, the candidates of `pre` and the candidate of
`r`: every earlier candidate has been attempted before and no repository after
`r` is attempted. When the first byte of the name is ASCII, the candidate is
the one built with the first character of the name. -/
theorem LoadServiceResource_fallback_order (env : Env) (name : GoString)
    (pre : List GoString) (r : GoString) (post : List GoString) (w : World) (b : Bytes)
    (hne : name ≠ [])
    (hfail : allFail env (name :: pre.map (byteCandidate name)) w = true)
    (hhit : (LoadResource env (byteCandidate name r) true
        (afterLoads env true (name :: pre.map (byteCandidate name)) w)).2 = Outcome.ok b) :
    LoadServiceResource env name true (pre ++ r :: post) w =
      (afterLoads env true (name :: (pre ++ [r]).map (byteCandidate name)) w,
        Outcome.ok b) ∧
    (∀ (c : UInt8) (rest : GoString), name = c :: rest → c.toNat < 128 →
      ∀ base, byteCandidate name base = candidate name base) := by
  refine ⟨?_, fun c rest hname hascii base =>
    byteCandidate_eq_candidate name base c rest hname hascii⟩
  simp only [allFail, Bool.and_eq_true] at hfail
  simp only [afterLoads] at hhit
  have hnn := LoadResource_true_ne_noNetwork env name w
  unfold LoadServiceResource
  simp only [afterLoads]
  rcases hl : LoadResource env name true w with ⟨w1, res⟩
  rw [hl] at hfail hhit hnn
  obtain ⟨hres, hrest⟩ := hfail
  cases res with
  | ok a => simp [isFail] at hres
  | fault => simp [isFail] at hres
  | fail e =>
    have he : e ≠ Err.ErrNoNetwork := fun h => hnn (by rw [h])
    simp only [he, decide_False, Bool.not_true, Bool.or_self, Bool.false_eq_true, if_false]
    exact serviceLoop_first_success env name hne r post b pre w1 hrest hhit

/-- An instance of the amended C5, the scenario of the spec: name "foo",
repositories "http://repo1" and "http://repo2", where "http://repo1/f/foo.yml"
is answered 404 and "http://repo2/f/foo.yml" is served with body "data". -/
theorem LoadServiceResource_fallback_order_witness :
    str "foo" ≠ [] ∧
    allFail envRepos (str "foo" :: [str "http://repo1"].map (byteCandidate (str "foo")))
      emptyWorld = true ∧
    LoadServiceResource envRepos (str "foo") true [str "http://repo1", str "http://repo2"]
        emptyWorld =
      ({ cache := [(str "http://repo2/f/foo.yml", str "data")],
         trace := [Event.cacheLookup (str "http://repo1/f/foo.yml"),
           Event.httpGet (str "http://repo1/f/foo.yml"),
           Event.cacheLookup (str "http://repo2/f/foo.yml"),
           Event.httpGet (str "http://repo2/f/foo.yml"),
           Event.cacheAdd (str "http://repo2/f/foo.yml") (str "data")] },
        Outcome.ok (str "data")) ∧
    byteCandidate (str "foo") (str "http://repo2") = candidate (str "foo") (str "http://repo2") :=
  ⟨by decide, by decide,
    ((LoadServiceResource_fallback_order envRepos (str "foo") [str "http://repo1"]
      (str "http://repo2") [] emptyWorld (str "data") (by decide) (by decide)
      (by decide)).1).trans (by decide),
    (LoadServiceResource_fallback_order envRepos (str "foo") [str "http://repo1"]
      (str "http://repo2") [] emptyWorld (str "data") (by decide) (by decide)
      (by decide)).2 102 (str "oo") (by decide) (by decide) (str "http://repo2")⟩

/-- For a non-empty name the repository loop returns bytes or `ErrNotFound`. -/
theorem serviceLoop_outcomes (env : Env) (name : GoString) (hne : name ≠ []) :
    ∀ (urls : List GoString) (w : World),
      (∃ b, (serviceLoop env name true urls w).2 = Outcome.ok b) ∨
      (serviceLoop env name true urls w).2 = Outcome.fail Err.ErrNotFound := by
  intro urls
  induction urls with
  | nil => intro w; exact Or.inr rfl
  | cons u rest ih =>
    intro w
    have hnf := LoadResource_ne_fault env (byteCandidate name u) true w
    simp only [serviceLoop, serviceUrl_eq_byteCandidate _ name hne]
    rcases hl : LoadResource env (byteCandidate name u) true w with ⟨w1, res⟩
    rw [hl] at hnf
    cases res with
    | ok a => exact Or.inl ⟨a, rfl⟩
    | fault => exact absurd rfl hnf
    | fail e => exact ih w1

/-- The part of C7 that the code satisfies: for every non-empty name, every
flag and every repository list, `LoadServiceResource` returns bytes or fails
with `ErrNoNetwork` or `ErrNotFound`. -/
theorem LoadServiceResource_outcomes (env : Env) (name : GoString) (useNetwork : Bool)
    (urls : List GoString) (w : World) (hne : name ≠ []) :
    (∃ b, (LoadServiceResource env name useNetwork urls w).2 = Outcome.ok b) ∨
    (LoadServiceResource env name useNetwork urls w).2 = Outcome.fail Err.ErrNoNetwork ∨
    (LoadServiceResource env name useNetwork urls w).2 = Outcome.fail Err.ErrNotFound := by
  have hnf := LoadResource_ne_fault env name useNetwork w
  unfold LoadServiceResource
  rcases hl : LoadResource env name useNetwork w with ⟨w1, res⟩
  rw [hl] at hnf
  cases res with
  | ok a => exact Or.inl ⟨a, rfl⟩
  | fault => exact absurd rfl hnf
  | fail e =>
    by_cases hc : (e = Err.ErrNoNetwork || !useNetwork) = true
    · simp only [decide_eq_true_eq] at hc
      simp [hc]
    · have hu : useNetwork = true := by
        cases useNetwork <;> simp_all
      subst hu
      simp only [hc, Bool.false_eq_true, if_false]
      rcases serviceLoop_outcomes env name hne urls w1 with h | h
      · exact Or.inl h
      · exact Or.inr (Or.inr h)

/-! ### `GetServices` -/

/-- The loop of `GetServices` appends to the accumulated slice the
contributions of the remaining repositories, in order. -/
theorem GetServicesLoop_eq (env : Env) (Unmarshal : Bytes → Ret ServiceMap) :
    ∀ (urls : List GoString) (result : List GoString) (w : World),
      GetServicesLoop env Unmarshal urls result w =
        (afterLoads env true (urls.map fun url => url ++ str "/index.yml") w,
          Outcome.ok (result ++ (indexContributions env Unmarshal urls w).flatten)) := by
  intro urls
  induction urls with
  | nil => intro result w; simp [GetServicesLoop, afterLoads, indexContributions]
  | cons u rest ih =>
    intro result w
    have hnf := LoadResource_ne_fault env (u ++ str "/index.yml") true w
    simp only [GetServicesLoop, List.map_cons, afterLoads, indexContributions,
      indexContribution, List.flatten_cons]
    rcases hl : LoadResource env (u ++ str "/index.yml") true w with ⟨w1, res⟩
    rw [hl] at hnf
    cases res with
    | fault => exact absurd rfl hnf
    | fail e => simp [ih]
    | ok content =>
      rcases hu : Unmarshal content with services | e
      · rcases hs : services (str "services") with _ | list <;> simp [ih, hu, hs]
      · simp [ih, hu]

/-- C8 (index accumulation). For every list of repository URLs `GetServices`
returns a nil error and the concatenation, in repository order, of the
contributions of the repositories, where a repository contributes the
"services" sequence of its `base + "/index.yml"` when that resource loads and
parses as a mapping, and nothing when the load fails, the parse fails or the
key is absent; every repository's index is requested, whatever happened to
the earlier ones. -/
theorem GetServices_accumulates (env : Env) (Unmarshal : Bytes → Ret ServiceMap)
    (urls : List GoString) (w : World) :
    GetServices env Unmarshal urls w =
      (afterLoads env true (urls.map fun url => url ++ str "/index.yml") w,
        Outcome.ok (indexContributions env Unmarshal urls w).flatten) := by
  simp [GetServices, GetServicesLoop_eq]

/-- An instance of C8, the scenario of the spec with a broken repository in
between: the indexes `services: [a, b]` and `services: [c]` give `[a, b, c]`. -/
theorem GetServices_accumulates_witness :
    (GetServices envIndex unmarshalIndex
        [str "http://repo1", str "http://broken", str "http://repo2"] emptyWorld).2 =
      Outcome.ok [str "a", str "b", str "c"] :=
  (congrArg Prod.snd
    (GetServices_accumulates envIndex unmarshalIndex
      [str "http://repo1", str "http://broken", str "http://repo2"] emptyWorld)).trans
    (by decide)

end Network

namespace Containerd

/-- The events of a task teardown are steps on the runtime, none of them a
container delete or a fatal log entry. -/
theorem taskTeardown_events (rt : Runtime) (ctr : ContainerID) (h : List Event) :
    (taskTeardown rt ctr h).filter isCall = taskTeardown rt ctr h ∧
      (taskTeardown rt ctr h).filterMap deletedContainer = [] ∧
      ∀ ev ∈ taskTeardown rt ctr h, isFatal ev = false := by
  unfold taskTeardown
  rcases rt.Task h ctr with _ | e | e
  · rcases rt.Kill (h ++ [Event.taskLookup ctr, Event.taskDelete ctr]) ctr with _ | e | e <;>
      simp [isCall, deletedContainer, isFatal]
  · simp [isCall, deletedContainer, isFatal]
  · simp [isCall, deletedContainer, isFatal]

/-- `cleanupTask` performs the task teardown of the spec, whatever the runtime
answers. -/
theorem cleanupTask_teardown (rt : Runtime) (ctr : ContainerID) (t : List Event) :
    (cleanupTask rt ctr t).1 = t ++ taskTeardown rt ctr t := by
  unfold cleanupTask taskTeardown
  rcases h1 : rt.Task t ctr with _ | e | e
  · simp only
    rcases h2 : rt.Kill (t ++ [Event.taskLookup ctr, Event.taskDelete ctr]) ctr with _ | e | e
    · rcases h3 : rt.Select (t ++ [Event.taskLookup ctr, Event.taskDelete ctr] ++
          [Event.taskKill ctr]) ctr with _ | e | e <;> simp
    · rcases h3 : rt.Select (t ++ [Event.taskLookup ctr, Event.taskDelete ctr] ++
          [Event.taskKill ctr]) ctr with _ | e | e <;> simp
    · simp
  · simp
  · simp

/-- One turn of the loop performs the reclaim of its container: the task
teardown and then the container delete, whatever the runtime answers, and
logs nothing fatal. -/
theorem systemInitCmdBody_reclaims (rt : Runtime) (ctr : ContainerID) (t : List Event) :
    ∃ added, systemInitCmdBody rt ctr t = t ++ added ∧
      added.filter isCall = reclaimCalls rt ctr t ∧
      added.filterMap deletedContainer = [ctr] ∧
      ∀ ev ∈ added, isFatal ev = false := by
  have hct := cleanupTask_teardown rt ctr
    (t ++ [Event.log Level.info "Cleaning up stale service" ctr])
  obtain ⟨hcalls, hdel, hfatal⟩ := taskTeardown_events rt ctr
    (t ++ [Event.log Level.info "Cleaning up stale service" ctr])
  unfold systemInitCmdBody
  rcases hc : cleanupTask rt ctr (t ++ [Event.log Level.info "Cleaning up stale service" ctr])
    with ⟨t1, err⟩
  rw [hc] at hct
  simp only at hct
  subst hct
  rcases err with _ | err
  · simp only
    rcases rt.Delete _ ctr with _ | e
    · refine ⟨Event.log Level.info "Cleaning up stale service" ctr ::
        taskTeardown rt ctr (t ++ [Event.log Level.info "Cleaning up stale service" ctr]) ++
        [Event.containerDelete ctr], by simp [hc],
        by simp [List.filter_cons, List.filter_append, isCall, hcalls, reclaimCalls],
        by simp [List.filterMap_cons, List.filterMap_append, deletedContainer, hdel], ?_⟩
      intro ev hev
      simp only [List.cons_append, List.mem_cons, List.mem_append,
        List.mem_nil_iff, or_false] at hev
      rcases hev with rfl | hev | rfl
      · rfl
      · exact hfatal ev hev
      · rfl
    · refine ⟨Event.log Level.info "Cleaning up stale service" ctr ::
        taskTeardown rt ctr (t ++ [Event.log Level.info "Cleaning up stale service" ctr]) ++
        [Event.containerDelete ctr, Event.log Level.error "deleting container" ctr],
        by simp [hc],
        by simp [List.filter_cons, List.filter_append, isCall, hcalls, reclaimCalls],
        by simp [List.filterMap_cons, List.filterMap_append, deletedContainer, hdel], ?_⟩
      intro ev hev
      simp only [List.cons_append, List.mem_cons, List.mem_append,
        List.mem_nil_iff, or_false] at hev
      rcases hev with rfl | hev | rfl | rfl
      · rfl
      · exact hfatal ev hev
      · rfl
      · rfl
  · simp only
    rcases rt.Delete _ ctr with _ | e
    · refine ⟨Event.log Level.info "Cleaning up stale service" ctr ::
        taskTeardown rt ctr (t ++ [Event.log Level.info "Cleaning up stale service" ctr]) ++
        [Event.log Level.error "cleaning up task" ctr, Event.containerDelete ctr],
        by simp [hc],
        by simp [List.filter_cons, List.filter_append, isCall, hcalls, reclaimCalls],
        by simp [List.filterMap_cons, List.filterMap_append, deletedContainer, hdel], ?_⟩
      intro ev hev
      simp only [List.cons_append, List.mem_cons, List.mem_append,
        List.mem_nil_iff, or_false] at hev
      rcases hev with rfl | hev | rfl | rfl
      · rfl
      · exact hfatal ev hev
      · rfl
      · rfl
    · refine ⟨Event.log Level.info "Cleaning up stale service" ctr ::
        taskTeardown rt ctr (t ++ [Event.log Level.info "Cleaning up stale service" ctr]) ++
        [Event.log Level.error "cleaning up task" ctr, Event.containerDelete ctr,
          Event.log Level.error "deleting container" ctr],
        by simp [hc],
        by simp [List.filter_cons, List.filter_append, isCall, hcalls, reclaimCalls],
        by simp [List.filterMap_cons, List.filterMap_append, deletedContainer, hdel], ?_⟩
      intro ev hev
      simp only [List.cons_append, List.mem_cons, List.mem_append,
        List.mem_nil_iff, or_false] at hev
      rcases hev with rfl | hev | rfl | rfl | rfl
      · rfl
      · exact hfatal ev hev
      · rfl
      · rfl
      · rfl

/-- C10 (reclaim isolation). For every list of containers and every behaviour
of the runtime and of the context (task lookup, kill, task delete or container
delete failing, or the context expiring, for any of the containers), the steps
that the stale-container loop of `systemInitCmd` takes on the runtime are, for
every listed container in list order, its task cleanup (fetch the task and,
when there is one, start its delete, send the kill and, unless the kill fails,
wait for the delete or the context) followed by its container delete; the
container deletes attempted are exactly those of the listed containers, in
list order. No failure skips the container delete or the turn of a later
container, and the loop, which has no error result, writes no fatal log
entry. -/
theorem systemInitCmdLoop_isolation (rt : Runtime) (ctrs : List ContainerID)
    (t : List Event) :
    ∃ added, systemInitCmdLoop rt ctrs t = t ++ added ∧
      added.filter isCall = reclaimAllCalls rt ctrs t ∧
      added.filterMap deletedContainer = ctrs ∧
      ∀ ev ∈ added, isFatal ev = false := by
  induction ctrs generalizing t with
  | nil => exact ⟨[], by simp [systemInitCmdLoop], by simp [reclaimAllCalls], by simp, by simp⟩
  | cons ctr rest ih =>
    obtain ⟨a1, h1, hc1, hd1, hf1⟩ := systemInitCmdBody_reclaims rt ctr t
    obtain ⟨a2, h2, hc2, hd2, hf2⟩ := ih (systemInitCmdBody rt ctr t)
    refine ⟨a1 ++ a2, ?_, ?_, ?_, ?_⟩
    · rw [systemInitCmdLoop, h2, h1, List.append_assoc]
    · rw [List.filter_append, hc1, hc2, reclaimAllCalls]
    · rw [List.filterMap_append, hd1, hd2]
      rfl
    · intro ev hev
      rcases List.mem_append.mp hev with h | h
      · exact hf1 ev h
      · exact hf2 ev h

/-- The scenario of the spec: of three listed containers the second fails at
the kill and at the container delete; the first and the third are fully
reclaimed (task delete started, kill sent, delete awaited, container deleted)
and the second still gets its container delete. -/
theorem systemInitCmdLoop_three :
    (systemInitCmdLoop rtSecondFails ["a", "b", "c"] []).filter isCall =
      [Event.taskLookup "a", Event.taskDelete "a", Event.taskKill "a", Event.selectDone "a",
        Event.containerDelete "a",
        Event.taskLookup "b", Event.taskDelete "b", Event.taskKill "b",
        Event.containerDelete "b",
        Event.taskLookup "c", Event.taskDelete "c", Event.taskKill "c", Event.selectDone "c",
        Event.containerDelete "c"] := by
  decide

end Containerd
